import Mathlib

/-!
Verification of the conversion-and-editor-lifecycle orchestrator of the
`document` repository.  Each definition is a shallow embedding of the
corresponding TypeScript function; theorems settle the frozen claims.
-/

namespace DocVerify

/-! ### Character classes used by `X2TConverter.sanitizeFileName`

The source removes, in order: the illegal-character class `[/?<>\\:*|"]`,
the control-character class `[\x00-\x1f\x80-\x9f]`, a name consisting only
of dots (`^\.+$`), and the unsafe-character class `[&'%!"{}[\]]`.  It then
trims (JavaScript `String.prototype.trim`, i.e. the JS whitespace set),
defaults to `"file"` and truncates to 200 characters. -/

def illegalChars : List Char := ['/', '?', '<', '>', '\\', ':', '*', '|', '"']

def isIllegalC (c : Char) : Bool := illegalChars.contains c

def isCtlC (c : Char) : Bool :=
  (c.toNat ≤ 0x1f) || (0x80 ≤ c.toNat && c.toNat ≤ 0x9f)

def unsafeChars : List Char := ['&', '\x27', '%', '!', '"', '\x7b', '\x7d', '[', ']']

def isUnsafeC (c : Char) : Bool := unsafeChars.contains c

/-- The JavaScript whitespace set recognised by `String.prototype.trim`:
WhiteSpace (tab, vertical tab, form feed, space, NBSP, BOM, the Unicode
space separators) plus LineTerminator (LF, CR, LS, PS). -/
def isWsC (c : Char) : Bool :=
  c ∈ ['\t', '\n', '\x0b', '\x0c', '\r', ' ', '\xa0',
       '\u1680', '\u2000', '\u2001', '\u2002', '\u2003', '\u2004',
       '\u2005', '\u2006', '\u2007', '\u2008', '\u2009', '\u200a',
       '\u2028', '\u2029', '\u202f', '\u205f', '\u3000', '\ufeff']

/-- Left trim: drop leading JS whitespace. -/
def trimLeft (l : List Char) : List Char := l.dropWhile isWsC

/-- Right trim: drop trailing JS whitespace (structural form of
`String.prototype.trimEnd` over the JS whitespace set). -/
def trimRight : List Char → List Char
  | [] => []
  | c :: cs =>
    match trimRight cs with
    | [] => if isWsC c then [] else [c]
    | r => c :: r

/-- JavaScript `String.prototype.trim`. -/
def jsTrim (l : List Char) : List Char := trimRight (trimLeft l)

/-- JavaScript `input.split('.')` on the character list: splits at every
dot; `"".split('.')` is `[""]`, `"a.".split('.')` is `["a", ""]`. -/
def splitDot : List Char → List (List Char)
  | [] => [[]]
  | c :: cs =>
    if c = '.' then [] :: splitDot cs
    else
      match splitDot cs with
      | [] => [[c]]
      | p :: ps => (c :: p) :: ps

/-- JavaScript `parts.join('.')`. -/
def joinDot (ps : List (List Char)) : List Char := List.intercalate ['.'] ps

/-- The processing applied by `sanitizeFileName` to the name part (the
input minus its popped extension): the four `replace` calls, `trim`,
the `'file'` default, and `slice(0, 200)`. -/
def processName (name : List Char) : List Char :=
  let s1 := name.filter (fun c => !isIllegalC c)
  let s2 := s1.filter (fun c => !isCtlC c)
  let s3 := if !s2.isEmpty && s2.all (· == '.') then [] else s2
  let s4 := s3.filter (fun c => !isUnsafeC c)
  let s5 := jsTrim s4
  let s6 := if s5.isEmpty then "file".data else s5
  s6.take 200

/-- `X2TConverter.sanitizeFileName` on the character list of a string
input.  (The `typeof input !== 'string'` guard is outside this model of
string inputs; the `!input.trim()` guard is the first branch.) -/
def sanitizeL (l : List Char) : List Char :=
  if (jsTrim l).isEmpty then "file.bin".data
  else
    let parts := splitDot l
    let extRaw := parts.getLast?.getD []
    let ext := if extRaw.isEmpty then "bin".data else extRaw
    let name := joinDot parts.dropLast
    processName name ++ '.' :: ext

/-- `X2TConverter.sanitizeFileName` (string level). -/
def sanitizeFileName (s : String) : String := String.mk (sanitizeL s.data)

/-- `sanitizeFileName` as called on a possibly-`undefined` JS value
(the `typeof input !== 'string'` guard returns `'file.bin'`). -/
def sanitizeFileNameJS : Option String → String
  | none => "file.bin"
  | some s => sanitizeFileName s

/-- The stem of a file name: everything before the popped extension,
i.e. `parts.join('.')` after `parts.pop()` (used to state what part of
a sanitized output is actually clean). -/
def stemOf (s : String) : List Char := joinDot (splitDot s.data).dropLast

/-! ### Lemmas about trimming -/

theorem mem_trimRight {c : Char} : ∀ {l : List Char}, c ∈ trimRight l → c ∈ l
  | [], h => by simp [trimRight] at h
  | a :: as, h => by
    rw [trimRight] at h
    rcases hr : trimRight as with _ | ⟨b, bs⟩
    · rw [hr] at h
      by_cases hw : isWsC a
      · simp [hw] at h
      · simp [hw] at h
        simp [h]
    · rw [hr] at h
      rcases List.mem_cons.mp h with h | h
      · simp [h]
      · exact List.mem_cons_of_mem _ (mem_trimRight (hr ▸ h))

theorem trimRight_length_le : ∀ l : List Char, (trimRight l).length ≤ l.length
  | [] => by simp [trimRight]
  | a :: as => by
    rw [trimRight]
    rcases hr : trimRight as with _ | ⟨b, bs⟩
    · by_cases hw : isWsC a <;> simp [hw]
    · have := trimRight_length_le as
      rw [hr] at this
      simpa using Nat.succ_le_succ this

theorem trimRight_idem : ∀ l : List Char, trimRight (trimRight l) = trimRight l
  | [] => by simp [trimRight]
  | a :: as => by
    rw [trimRight]
    rcases hr : trimRight as with _ | ⟨b, bs⟩
    · by_cases hw : isWsC a
      · simp [hw, trimRight]
      · simp [hw, trimRight]
    · have ih := trimRight_idem as
      rw [hr] at ih
      rw [trimRight, ih]

theorem trimRight_eq_nil_ws : ∀ {l : List Char}, trimRight l = [] → ∀ c ∈ l, isWsC c = true
  | [], _, c, hc => by simp at hc
  | a :: as, h, c, hc => by
    rw [trimRight] at h
    rcases hr : trimRight as with _ | ⟨b, bs⟩
    · rw [hr] at h
      by_cases hw : isWsC a
      · rcases List.mem_cons.mp hc with rfl | hc
        · exact hw
        · exact trimRight_eq_nil_ws hr c hc
      · simp [hw] at h
    · rw [hr] at h
      exact absurd h (by simp)

theorem trimRight_cons_of_not_ws {c : Char} (cs : List Char) (h : isWsC c = false) :
    ∃ t, trimRight (c :: cs) = c :: t := by
  rw [trimRight]
  rcases hr : trimRight cs with _ | ⟨b, bs⟩
  · exact ⟨[], by simp [h]⟩
  · exact ⟨b :: bs, rfl⟩

theorem dropWhile_head_not {p : Char → Bool} :
    ∀ {l t : List Char} {c : Char}, l.dropWhile p = c :: t → p c = false
  | [], _, _, h => by simp [List.dropWhile] at h
  | a :: as, t, c, h => by
    by_cases hp : p a
    · rw [List.dropWhile_cons_of_pos hp] at h
      exact dropWhile_head_not h
    · rw [List.dropWhile_cons_of_neg hp] at h
      cases h
      simpa using hp

theorem head_not_ws_of_trimLeft_eq {c : Char} {t : List Char}
    (h : trimLeft (c :: t) = c :: t) : isWsC c = false := by
  by_cases hw : isWsC c
  · exfalso
    unfold trimLeft at h
    rw [List.dropWhile_cons_of_pos hw] at h
    have hle := List.Sublist.length_le (List.dropWhile_sublist (l := t) isWsC)
    rw [h] at hle
    simp at hle
  · exact (Bool.not_eq_true _).mp hw

theorem jsTrim_eq_nil_ws {l : List Char} (h : jsTrim l = []) :
    ∀ c ∈ l, isWsC c = true := by
  intro c hc
  unfold jsTrim at h
  have hdrop := trimRight_eq_nil_ws h
  have hsplit := List.takeWhile_append_dropWhile isWsC l
  rw [← hsplit] at hc
  rcases List.mem_append.mp hc with hc | hc
  · exact List.mem_takeWhile_imp hc
  · exact hdrop c hc

theorem jsTrim_ne_nil_of_mem {l : List Char} {c : Char}
    (hc : c ∈ l) (hw : isWsC c = false) : (jsTrim l).isEmpty = false := by
  rcases h : jsTrim l with _ | _
  · exact absurd (jsTrim_eq_nil_ws h c hc) (by simp [hw])
  · rfl

/-! ### Lemmas about dot splitting -/

theorem splitDot_ne_nil : ∀ l : List Char, splitDot l ≠ []
  | [] => by simp [splitDot]
  | c :: cs => by
    rw [splitDot]
    by_cases h : c = '.'
    · simp [h]
    · simp only [h, if_false]
      rcases hs : splitDot cs with _ | ⟨p, ps⟩ <;> simp

theorem no_dot_mem_splitDot : ∀ {l : List Char} {p : List Char}, p ∈ splitDot l → '.' ∉ p
  | [], p, hp => by
    rw [splitDot] at hp
    simp at hp
    simp [hp]
  | c :: cs, p, hp => by
    rw [splitDot] at hp
    by_cases h : c = '.'
    · rw [if_pos h] at hp
      rcases List.mem_cons.mp hp with rfl | hp
      · simp
      · exact no_dot_mem_splitDot hp
    · rw [if_neg h] at hp
      rcases hs : splitDot cs with _ | ⟨q, qs⟩
      · exact absurd hs (splitDot_ne_nil cs)
      · rw [hs] at hp
        rcases List.mem_cons.mp hp with rfl | hp
        · intro hmem
          rcases List.mem_cons.mp hmem with h' | h'
          · exact h h'.symm
          · exact no_dot_mem_splitDot (hs ▸ List.mem_cons_self q qs) h'
        · exact no_dot_mem_splitDot (hs ▸ List.mem_cons_of_mem q hp)

theorem joinDot_splitDot : ∀ l : List Char, joinDot (splitDot l) = l
  | [] => by simp [splitDot, joinDot, List.intercalate]
  | c :: cs => by
    have ih := joinDot_splitDot cs
    rw [splitDot]
    by_cases h : c = '.'
    · subst h
      rcases hs : splitDot cs with _ | ⟨p, ps⟩
      · exact absurd hs (splitDot_ne_nil cs)
      · rw [hs] at ih
        simp only [joinDot, List.intercalate] at ih ⊢
        simp only [List.intersperse]
        rcases ps with _ | ⟨q, qs⟩ <;> simp_all [List.intersperse]
    · simp only [h, if_false]
      rcases hs : splitDot cs with _ | ⟨p, ps⟩
      · exact absurd hs (splitDot_ne_nil cs)
      · rw [hs] at ih
        simp only [joinDot, List.intercalate] at ih ⊢
        rcases ps with _ | ⟨q, qs⟩ <;> simp_all [List.intersperse]

theorem splitDot_of_no_dot : ∀ {e : List Char}, '.' ∉ e → splitDot e = [e]
  | [], _ => by simp [splitDot]
  | c :: cs, h => by
    rw [splitDot]
    have hc : ¬(c = '.') := fun hc => h (hc ▸ List.mem_cons_self c cs)
    rw [if_neg hc, splitDot_of_no_dot (fun hm => h (List.mem_cons_of_mem c hm))]

theorem splitDot_cons_dot (cs : List Char) : splitDot ('.' :: cs) = [] :: splitDot cs := by
  rw [splitDot, if_pos rfl]

theorem splitDot_append {e : List Char} (he : '.' ∉ e) :
    ∀ n : List Char, splitDot (n ++ '.' :: e) = splitDot n ++ [e]
  | [] => by
    rw [List.nil_append, splitDot_cons_dot, splitDot_of_no_dot he]
    rfl
  | c :: cs => by
    have ih := splitDot_append he cs
    by_cases h : c = '.'
    · subst h
      show splitDot ('.' :: (cs ++ '.' :: e)) = splitDot ('.' :: cs) ++ [e]
      rw [splitDot, if_pos rfl, ih]
      conv_rhs => rw [splitDot, if_pos rfl]
      rfl
    · show splitDot (c :: (cs ++ '.' :: e)) = splitDot (c :: cs) ++ [e]
      rw [splitDot, if_neg h, ih]
      conv_rhs => rw [splitDot, if_neg h]
      rcases hs : splitDot cs with _ | ⟨p, ps⟩
      · exact absurd hs (splitDot_ne_nil cs)
      · rfl

/-! ### The pass invariants of `processName` -/

/-- No character of the list belongs to any of the three removed classes. -/
def CleanL (l : List Char) : Prop :=
  ∀ c ∈ l, isIllegalC c = false ∧ isCtlC c = false ∧ isUnsafeC c = false

instance : DecidablePred CleanL := fun l =>
  List.decidableBAll _ l

/-- Invariant after one application of `processName`: clean, nonempty,
within the length limit, and with no leading whitespace. -/
def Q1 (l : List Char) : Prop :=
  CleanL l ∧ l ≠ [] ∧ l.length ≤ 200 ∧ trimLeft l = l

/-- Invariant after two applications: additionally stable under right trim. -/
def Q2 (l : List Char) : Prop := Q1 l ∧ trimRight l = l

/-- Invariant after three applications: additionally not made of dots only;
such a list is a fixed point of `processName`. -/
def Q3 (l : List Char) : Prop := Q2 l ∧ ¬(!l.isEmpty && l.all (· == '.')) = true

instance (l : List Char) : Decidable (Q1 l) := by unfold Q1; infer_instance

instance (l : List Char) : Decidable (Q2 l) := by unfold Q2; infer_instance

instance (l : List Char) : Decidable (Q3 l) := by unfold Q3; infer_instance

theorem processName_Q1 (n : List Char) : Q1 (processName n) := by
  simp only [processName]
  set s1 := n.filter (fun c => !isIllegalC c) with hs1
  set s2 := s1.filter (fun c => !isCtlC c) with hs2
  set s3 := if !s2.isEmpty && s2.all (· == '.') then [] else s2 with hs3
  set s4 := s3.filter (fun c => !isUnsafeC c) with hs4
  have hs4clean : CleanL s4 := by
    intro c hc
    have h4 := List.mem_filter.mp hc
    have hc3 : c ∈ s3 := h4.1
    have hc2 : c ∈ s2 := by
      rw [hs3] at hc3
      split at hc3
      · simp at hc3
      · exact hc3
    have h2 := List.mem_filter.mp hc2
    have h1 := List.mem_filter.mp h2.1
    refine ⟨by simpa using h1.2, by simpa using h2.2, by simpa using h4.2⟩
  rcases h5 : jsTrim s4 with _ | ⟨d, ds⟩
  · simp only [h5, List.isEmpty_nil, if_true]
    decide
  · have hdnotws : isWsC d = false := by
      unfold jsTrim at h5
      rcases hdl : trimLeft s4 with _ | ⟨a, as⟩
      · rw [hdl] at h5
        simp [trimRight] at h5
      · rw [hdl] at h5
        have ha : isWsC a = false := dropWhile_head_not hdl
        rcases trimRight_cons_of_not_ws as ha with ⟨t, ht⟩
        rw [ht] at h5
        cases h5
        exact ha
    have hclean5 : CleanL (d :: ds) := by
      intro c hc
      have hc' : c ∈ jsTrim s4 := by rw [h5]; exact hc
      unfold jsTrim at hc'
      exact hs4clean c (List.Sublist.mem (mem_trimRight hc')
        (List.dropWhile_sublist (l := s4) isWsC))
    simp only [h5, List.isEmpty_cons, if_false, Bool.false_eq_true]
    refine ⟨?_, ?_, ?_, ?_⟩
    · intro c hc
      exact hclean5 c ((List.take_sublist _ _).mem hc)
    · simp [List.take]
    · rw [List.length_take]
      exact le_trans (min_le_left _ _) (by norm_num)
    · rw [List.take]
      unfold trimLeft
      rw [List.dropWhile_cons_of_neg (by simp [hdnotws])]

theorem processName_of_Q1 {n : List Char} (h : Q1 n) :
    processName n = if !n.isEmpty && n.all (· == '.') then "file".data else trimRight n := by
  obtain ⟨hclean, hne, hlen, htl⟩ := h
  simp only [processName]
  have h1 : n.filter (fun c => !isIllegalC c) = n :=
    List.filter_eq_self.mpr (fun c hc => by simp [(hclean c hc).1])
  have h2 : n.filter (fun c => !isCtlC c) = n :=
    List.filter_eq_self.mpr (fun c hc => by simp [(hclean c hc).2.1])
  have h4 : n.filter (fun c => !isUnsafeC c) = n :=
    List.filter_eq_self.mpr (fun c hc => by simp [(hclean c hc).2.2])
  rw [h1, h2]
  by_cases hdots : (!n.isEmpty && n.all (· == '.')) = true
  · rw [if_pos hdots, if_pos hdots]
    decide
  · rw [if_neg hdots, if_neg hdots, h4]
    have hjt : jsTrim n = trimRight n := by unfold jsTrim; rw [htl]
    rw [hjt]
    rcases n with _ | ⟨c, cs⟩
    · exact absurd rfl hne
    · have hcw : isWsC c = false := head_not_ws_of_trimLeft_eq htl
      rcases trimRight_cons_of_not_ws cs hcw with ⟨t, ht⟩
      rw [ht]
      simp only [List.isEmpty_cons, if_false, Bool.false_eq_true]
      refine List.take_of_length_le ?_
      have := trimRight_length_le (c :: cs)
      rw [ht] at this
      omega

theorem processName_Q2_of_Q1 {n : List Char} (h : Q1 n) : Q2 (processName n) := by
  rw [processName_of_Q1 h]
  by_cases hdots : (!n.isEmpty && n.all (· == '.')) = true
  · rw [if_pos hdots]
    exact ⟨⟨by decide, by decide, by decide, by decide⟩, by decide⟩
  · rw [if_neg hdots]
    obtain ⟨hclean, hne, hlen, htl⟩ := h
    rcases n with _ | ⟨c, cs⟩
    · exact absurd rfl hne
    · have hcw : isWsC c = false := head_not_ws_of_trimLeft_eq htl
      rcases trimRight_cons_of_not_ws cs hcw with ⟨t, ht⟩
      refine ⟨⟨?_, ?_, ?_, ?_⟩, trimRight_idem _⟩
      · intro a ha
        exact hclean a (mem_trimRight ha)
      · rw [ht]; simp
      · exact le_trans (trimRight_length_le _) hlen
      · rw [ht]
        unfold trimLeft
        rw [List.dropWhile_cons_of_neg (by simp [hcw])]

theorem processName_of_Q2 {n : List Char} (h : Q2 n) :
    processName n = if !n.isEmpty && n.all (· == '.') then "file".data else n := by
  rw [processName_of_Q1 h.1, h.2]

theorem processName_Q3_of_Q2 {n : List Char} (h : Q2 n) : Q3 (processName n) := by
  rw [processName_of_Q2 h]
  by_cases hdots : (!n.isEmpty && n.all (· == '.')) = true
  · rw [if_pos hdots]
    exact ⟨⟨⟨by decide, by decide, by decide, by decide⟩, by decide⟩, by decide⟩
  · rw [if_neg hdots]
    exact ⟨h, hdots⟩

theorem processName_of_Q3 {n : List Char} (h : Q3 n) : processName n = n := by
  rw [processName_of_Q2 h.1, if_neg h.2]

/-! ### Shape of sanitizer outputs -/

theorem getLast?_mem : ∀ {l : List (List Char)} {a : List Char}, l.getLast? = some a → a ∈ l
  | [], a, h => by simp at h
  | [b], a, h => by
    simp [List.getLast?] at h
    simp [h]
  | b :: c :: t, a, h => by
    rw [List.getLast?_cons_cons] at h
    exact List.mem_cons_of_mem _ (getLast?_mem h)

theorem sanitizeL_step {n e : List Char} (he : '.' ∉ e) (hne : e ≠ []) :
    sanitizeL (n ++ '.' :: e) = processName n ++ '.' :: e := by
  unfold sanitizeL
  have hdot : ('.' : Char) ∈ n ++ '.' :: e := List.mem_append_right n (List.mem_cons_self _ _)
  rw [jsTrim_ne_nil_of_mem hdot (by decide)]
  simp only [Bool.false_eq_true, if_false]
  rw [splitDot_append he n, List.getLast?_concat, List.dropLast_concat]
  simp only [Option.getD_some]
  rw [if_neg (by simpa using hne), joinDot_splitDot]

theorem sanitizeL_shape (l : List Char) :
    ∃ n e, sanitizeL l = n ++ '.' :: e ∧ '.' ∉ e ∧ e ≠ [] ∧ Q1 n := by
  unfold sanitizeL
  by_cases hg : (jsTrim l).isEmpty = true
  · rw [if_pos hg]
    exact ⟨"file".data, "bin".data, by decide, by decide, by decide, by decide⟩
  · rw [if_neg hg]
    rcases hlast : (splitDot l).getLast? with _ | extRaw
    · rcases hsd : splitDot l with _ | ⟨p, ps⟩
      · exact absurd hsd (splitDot_ne_nil l)
      · rw [hsd] at hlast
        simp [List.getLast?_eq_getLast] at hlast
    · simp only [hlast, Option.getD_some]
      have hmem : extRaw ∈ splitDot l := getLast?_mem hlast
      have hnod : '.' ∉ extRaw := no_dot_mem_splitDot hmem
      by_cases hee : extRaw.isEmpty = true
      · rw [if_pos hee]
        exact ⟨_, _, rfl, by decide, by decide, processName_Q1 _⟩
      · rw [if_neg hee]
        exact ⟨_, _, rfl, hnod, by simpa using hee, processName_Q1 _⟩

theorem sanitizeL_stabilizes (l : List Char) :
    sanitizeL (sanitizeL (sanitizeL (sanitizeL l))) = sanitizeL (sanitizeL (sanitizeL l)) := by
  obtain ⟨n1, e, hshape, he, hene, hq1⟩ := sanitizeL_shape l
  rw [hshape, sanitizeL_step he hene, sanitizeL_step he hene, sanitizeL_step he hene]
  rw [processName_of_Q3 (processName_Q3_of_Q2 (processName_Q2_of_Q1 hq1))]

/-! ### Document types (`DOCUMENT_TYPE_MAP`, `X2TConverter.getDocumentType`) -/

inductive DocType
  | word
  | cell
  | slide
deriving DecidableEq, Repr

/-- `DOCUMENT_TYPE_MAP` of `X2TConverter`. -/
def DOCUMENT_TYPE_MAP : List (String × DocType) :=
  [("docx", .word), ("doc", .word), ("odt", .word), ("rtf", .word), ("txt", .word),
   ("xlsx", .cell), ("xls", .cell), ("ods", .cell), ("csv", .cell),
   ("pptx", .slide), ("ppt", .slide), ("odp", .slide)]

/-- JavaScript `toLowerCase` / `toUpperCase` on the character list (the
strings involved are ASCII, where the two agree with the JS functions). -/
def jsToLower (s : String) : String := String.mk (s.data.map Char.toLower)

def jsToUpper (s : String) : String := String.mk (s.data.map Char.toUpper)

/-- `X2TConverter.getDocumentType` as a partial lookup: `none` models the
`Unsupported file format` throw. -/
def lookupDocType (extension : String) : Option DocType :=
  DOCUMENT_TYPE_MAP.lookup (jsToLower extension)

/-- `getExtensions(file?.type)[0] || fileName.split('.').pop() || ''` —
extension resolution in `convertDocument` (the MIME-derived extension is a
parameter, since `getExtensions` is an external library function). -/
def resolveExtension (mimeExt : Option String) (fileName : String) : String :=
  let fromMime := mimeExt.getD ""
  if fromMime ≠ "" then fromMime
  else
    let fromName := String.mk ((splitDot fileName.data).getLast?.getD [])
    if fromName ≠ "" then fromName else ""

/-! ### Effects and oracles of the converter session

The WASM module, the Emscripten virtual filesystem's read side, SheetJS and
`URL.createObjectURL` are opaque collaborators; they are modelled by an
oracle record.  Writes performed by the orchestrator itself (`FS.writeFile`,
the `main1` call, and the final save/download step) are logged as effects. -/

/-- A workbook as surfaced by SheetJS: `SheetNames` and the `Sheets` map.
A sheet is opaque (`String` stands for its content). -/
structure Workbook where
  sheetNames : List String
  sheets : String → String

inductive FData
  | bytes (l : List Nat)
  | text (s : String)
deriving DecidableEq

inductive Effect
  | fsWrite (path : String) (data : FData)
  | runConvert (paramsPath : String)
  | save (fileName : String) (data : List Nat)
deriving DecidableEq

structure Oracle where
  /-- `FS.readFile` result per path (throws on a missing file). -/
  readFileRes : String → Except String (List Nat)
  /-- `FS.readdir` result per path. -/
  readdirRes : String → Except String (List String)
  /-- Return code of the blocking `ccall('main1', ...)` entry point. -/
  mainResult : Int
  /-- `URL.createObjectURL` for a blob with the given bytes. -/
  mkUrl : List Nat → String
  /-- `new TextDecoder('utf-8').decode` (total: non-fatal decoding never
  throws, so the `latin1` fallback in `convertCsvToXlsx` is unreachable). -/
  utf8Decode : List Nat → String
  /-- Outcome of `loadXlsxLibrary()`. -/
  xlsxLib : Except String Unit
  /-- `XLSX.read(text, {type:'string'})` on CSV text. -/
  csvRead : String → Except String Workbook
  /-- `XLSX.write(workbook, {type:'array', bookType:'xlsx'})`. -/
  xlsxWrite : Workbook → List Nat
  /-- `XLSX.read(bytes, {type:'array'})`. -/
  xlsxRead : List Nat → Except String Workbook
  /-- `XLSX.utils.sheet_to_csv`. -/
  sheetToCsv : String → String
  /-- `new TextEncoder().encode`. -/
  utf8Encode : String → List Nat

/-- The orchestrator's effect monad: failure (JS exceptions as `Except`)
over an append-only effect log.  On failure the log so far is kept, which
is what lets us state "no write was attempted before the error". -/
def ConvM (α : Type) := List Effect → Except String α × List Effect

instance : Monad ConvM where
  pure a := fun log => (.ok a, log)
  bind m f := fun log =>
    match m log with
    | (.ok a, log') => f a log'
    | (.error e, log') => (.error e, log')

def throwC {α : Type} (e : String) : ConvM α := fun log => (.error e, log)

def emit (ef : Effect) : ConvM Unit := fun log => (.ok (), log ++ [ef])

/-- JS `try { m } catch (e) { h e }`. -/
def tryCatchC {α : Type} (m : ConvM α) (h : String → ConvM α) : ConvM α := fun log =>
  match m log with
  | (.ok a, log') => (.ok a, log')
  | (.error e, log') => h e log'

def ofExceptC {α : Type} : Except String α → ConvM α
  | .ok a => pure a
  | .error e => throwC e

/-- `FS.readFile` (reads are oracle lookups; a missing file throws). -/
def fsReadFile (o : Oracle) (path : String) : ConvM (List Nat) :=
  ofExceptC (o.readFileRes path)

/-- `X2TConverter.createConversionParams`. -/
def createConversionParams (fromPath toPath additionalParams : String) : String :=
  "<?xml version=\"1.0\" encoding=\"utf-8\"?>\n" ++
  "<TaskQueueDataConvert xmlns:xsi=\"http://www.w3.org/2001/XMLSchema-instance\" xmlns:xsd=\"http://www.w3.org/2001/XMLSchema\">\n" ++
  "  <m_sFileFrom>" ++ fromPath ++ "</m_sFileFrom>\n" ++
  "  <m_sThemeDir>/working/themes</m_sThemeDir>\n" ++
  "  <m_sFileTo>" ++ toPath ++ "</m_sFileTo>\n" ++
  "  <m_bIsNoBase64>false</m_bIsNoBase64>\n" ++
  "  " ++ additionalParams ++ "\n" ++
  "</TaskQueueDataConvert>"

/-- `X2TConverter.executeConversion`: run `main1` and throw on a non-zero
return code (the diagnostic re-read of the params file only feeds
`console.error` and is swallowed on failure, so it has no observable
effect here). -/
def executeConversion (o : Oracle) (paramsPath : String) : ConvM Unit := do
  emit (.runConvert paramsPath)
  if o.mainResult ≠ 0 then
    throwC ("Conversion failed with code: " ++ toString o.mainResult)
  else
    pure ()

/-- `X2TConverter.readMediaFiles`: list `/working/media/`, read each entry
other than `.`/`..`, key object URLs under `media/<name>`.  Both the
directory listing and each individual read are guarded by `try`/`catch`,
so this function is total: a listing failure yields `{}` and a failing
file is skipped. -/
def readMediaFiles (o : Oracle) : List (String × String) :=
  match o.readdirRes "/working/media/" with
  | .error _ => []
  | .ok files =>
    (files.filter (fun f => f ≠ "." && f ≠ "..")).foldr
      (fun f acc =>
        match o.readFileRes ("/working/media/" ++ f) with
        | .error _ => acc
        | .ok bytes => ("media/" ++ f, o.mkUrl bytes) :: acc)
      []

/-! ### CSV helpers of the converter session -/

/-- The UTF-8 byte-order marker check and strip in `convertCsvToXlsx`. -/
def stripBom (data : List Nat) : List Nat :=
  if data.length ≥ 3 && data.take 3 == [0xef, 0xbb, 0xbf] then data.drop 3 else data

/-- Case-insensitive `.csv` suffix test (`/\.csv$/i` and
`fileName.toLowerCase().endsWith('.csv')`, which agree on every string). -/
def endsWithCsvCI (s : String) : Bool :=
  let l := s.data.map Char.toLower
  decide (l.length ≥ 4) && (l.drop (l.length - 4) == ".csv".data)

/-- `fileName.replace(/\.csv$/i, '.xlsx')`. -/
def csvToXlsxName (s : String) : String :=
  if endsWithCsvCI s then String.mk (s.data.take (s.data.length - 4)) ++ ".xlsx" else s

/-- `X2TConverter.convertCsvToXlsx`: load SheetJS, strip a BOM, decode,
parse as a workbook, serialize to XLSX bytes, rewrite the `.csv` suffix to
`.xlsx`.  Returns the synthesized file's name and bytes.  Any failure is
wrapped into the adapter's actionable message. -/
def convertCsvToXlsx (o : Oracle) (csvData : List Nat) (fileName : String) :
    Except String (String × List Nat) :=
  let res : Except String (String × List Nat) := do
    let _ ← o.xlsxLib
    let csvText := o.utf8Decode (stripBom csvData)
    let workbook ← o.csvRead csvText
    let xlsxBuffer := o.xlsxWrite workbook
    pure (csvToXlsxName fileName, xlsxBuffer)
  match res with
  | .ok r => .ok r
  | .error e => .error ("Failed to convert CSV to XLSX: " ++ e ++
      ". Please convert your CSV file to XLSX format manually and try again.")

/-- `ConversionResult` of `X2TConverter.convertDocument`. -/
structure ConversionResult where
  fileName : String
  type : DocType
  bin : List Nat
  media : List (String × String)
deriving DecidableEq

/-- `X2TConverter.convertDocument`, modelled after a successful
`initialize()` (the claims about this method presuppose a booted module;
the boot path itself is modelled separately below).  `mimeExt` is
`getExtensions(file.type)[0]`, `fileBytes` the file's content. -/
def convertDocument (o : Oracle) (mimeExt : Option String) (fileName : String)
    (fileBytes : List Nat) : ConvM ConversionResult :=
  let fileExt := resolveExtension mimeExt fileName
  match lookupDocType fileExt with
  | none => throwC ("Unsupported file format: " ++ fileExt)
  | some documentType =>
    tryCatchC
      (if jsToLower fileExt = "csv" then
        if fileBytes.length = 0 then throwC "CSV file is empty"
        else
          tryCatchC
            (match convertCsvToXlsx o fileBytes fileName with
             | .error e => throwC e
             | .ok (xlsxName, xlsxData) => do
                let sanitizedName := sanitizeFileName xlsxName
                let inputPath := "/working/" ++ sanitizedName
                let outputPath := inputPath ++ ".bin"
                emit (.fsWrite inputPath (.bytes xlsxData))
                emit (.fsWrite "/working/params.xml"
                  (.text (createConversionParams inputPath outputPath "")))
                executeConversion o "/working/params.xml"
                let result ← fsReadFile o outputPath
                let media := readMediaFiles o
                -- Return original CSV fileName, not the XLSX one
                pure { fileName := sanitizeFileName fileName, type := documentType,
                       bin := result, media := media })
            (fun e => throwC ("Failed to convert CSV file: " ++ e ++
              ". Please ensure your CSV file is properly formatted and try again."))
      else do
        let sanitizedName := sanitizeFileName fileName
        let inputPath := "/working/" ++ sanitizedName
        let outputPath := inputPath ++ ".bin"
        emit (.fsWrite inputPath (.bytes fileBytes))
        emit (.fsWrite "/working/params.xml"
          (.text (createConversionParams inputPath outputPath "")))
        executeConversion o "/working/params.xml"
        let result ← fsReadFile o outputPath
        let media := readMediaFiles o
        pure { fileName := sanitizedName, type := documentType,
               bin := result, media := media })
      (fun e => throwC ("Document conversion failed: " ++ e))

/-! ### `convertBinToDocumentAndDownload` and the save pipeline -/

/-- `sanitizeFileName(originalFileName).replace(/\.[^/.]+$/, '')`: strip a
final dot-extension whose characters contain neither `/` nor `.`. -/
def stripLastExt (s : String) : String :=
  let r := s.data.reverse
  let seg := r.takeWhile (fun c => c ≠ '.' && c ≠ '/')
  match r.drop seg.length with
  | '.' :: rest => if seg.isEmpty then s else String.mk rest.reverse
  | _ => s

structure BinConversionResult where
  fileName : String
  data : List Nat
deriving DecidableEq

/-- `X2TConverter.convertBinToDocumentAndDownload` (after a successful
`initialize()`).  `origName` may be JS `undefined`; a missing `targetExt`
takes the JS default parameter `'DOCX'`. -/
def convertBinToDocumentAndDownload (o : Oracle) (bin : List Nat)
    (origName : Option String) (targetExtOpt : Option String) :
    ConvM BinConversionResult :=
  let targetExt := targetExtOpt.getD "DOCX"
  let sanitizedBase := stripLastExt (sanitizeFileNameJS origName)
  let binFileName := sanitizedBase ++ ".bin"
  let outputFileName := sanitizedBase ++ "." ++ jsToLower targetExt
  tryCatchC
    (if jsToUpper targetExt = "CSV" then do
      -- bin → XLSX through the regular pipeline
      let xlsxFileName := sanitizedBase ++ ".xlsx"
      emit (.fsWrite ("/working/" ++ binFileName) (.bytes bin))
      emit (.fsWrite "/working/params.xml"
        (.text (createConversionParams ("/working/" ++ binFileName)
          ("/working/" ++ xlsxFileName) "")))
      executeConversion o "/working/params.xml"
      let xlsxArray ← fsReadFile o ("/working/" ++ xlsxFileName)
      -- XLSX → CSV through SheetJS, first sheet only
      let _ ← ofExceptC o.xlsxLib
      let workbook ← ofExceptC (o.xlsxRead xlsxArray)
      let firstSheetName := workbook.sheetNames.head?.getD ""
      let csvText := o.sheetToCsv (workbook.sheets firstSheetName)
      -- UTF-8 with BOM for better compatibility
      let csvArray := [0xef, 0xbb, 0xbf] ++ o.utf8Encode csvText
      emit (.save outputFileName csvArray)
      pure { fileName := outputFileName, data := csvArray }
    else do
      emit (.fsWrite ("/working/" ++ binFileName) (.bytes bin))
      let additionalParams :=
        if targetExt = "PDF" then "<m_sFontDir>/working/fonts/</m_sFontDir>" else ""
      emit (.fsWrite "/working/params.xml"
        (.text (createConversionParams ("/working/" ++ binFileName)
          ("/working/" ++ outputFileName) additionalParams)))
      executeConversion o "/working/params.xml"
      let result ← fsReadFile o ("/working/" ++ outputFileName)
      emit (.save outputFileName result)
      pure { fileName := outputFileName, data := result })
    (fun e => throwC ("Bin to document conversion failed: " ++ e))

/-- The `oAscFileType` constant table. -/
def oAscFileType : List (String × Nat) :=
  [("UNKNOWN", 0), ("PDF", 513), ("PDFA", 521), ("DJVU", 515), ("XPS", 516),
   ("DOCX", 65), ("DOC", 66), ("ODT", 67), ("RTF", 68), ("TXT", 69),
   ("HTML", 70), ("MHT", 71), ("EPUB", 72), ("FB2", 73), ("MOBI", 74),
   ("DOCM", 75), ("DOTX", 76), ("DOTM", 77), ("FODT", 78), ("OTT", 79),
   ("DOC_FLAT", 80), ("DOCX_FLAT", 81), ("HTML_IN_CONTAINER", 82),
   ("DOCX_PACKAGE", 84), ("OFORM", 85), ("DOCXF", 86), ("DOCY", 4097),
   ("CANVAS_WORD", 8193), ("JSON", 2056), ("XLSX", 257), ("XLS", 258),
   ("ODS", 259), ("CSV", 260), ("XLSM", 261), ("XLTX", 262), ("XLTM", 263),
   ("XLSB", 264), ("FODS", 265), ("OTS", 266), ("XLSX_FLAT", 267),
   ("XLSX_PACKAGE", 268), ("XLSY", 4098), ("PPTX", 129), ("PPT", 130),
   ("ODP", 131), ("PPSX", 132), ("PPTM", 133), ("PPSM", 134), ("POTX", 135),
   ("POTM", 136), ("FODP", 137), ("OTP", 138), ("PPTX_PACKAGE", 139),
   ("IMG", 1024), ("JPG", 1025), ("TIFF", 1026), ("TGA", 1027), ("GIF", 1028),
   ("PNG", 1029), ("EMF", 1030), ("WMF", 1031), ("BMP", 1032), ("CR2", 1033),
   ("PCX", 1034), ("RAS", 1035), ("PSD", 1036), ("ICO", 1037)]

/-- `c_oAscFileType2`: the inverse mapping `code → format name` built with
`Object.fromEntries` (the numeric codes are pairwise distinct, so a first
match is the unique match); `none` models an `undefined` lookup. -/
def fileTypeOfCode (code : Nat) : Option String :=
  (oAscFileType.find? (fun p => p.2 = code)).map (·.1)

/-- A save event as delivered to `handleSaveDocument`: presence of the
`event.data && event.data.data` payload, the binary data, and the
editor-reported `option.outputformat`. -/
structure SaveEvent where
  hasData : Bool
  binData : List Nat
  outputformat : Nat

/-- `handleSaveDocument`: determine the target format from the editor's
output format code, override it to CSV when the tracked document's
filename (from the store) ends in `.csv`, delegate to
`convertBinToDocumentAndDownload`, then notify the editor.  Returns the
conversion result (`none` when the event carried no payload); the final
`asc_onSaveCallback` notification is outside the effect log and skipped
when the conversion rejects, exactly as the unhandled `await` does. -/
def handleSaveDocument (o : Oracle) (storeFileName : Option String)
    (ev : SaveEvent) : ConvM (Option BinConversionResult) :=
  if ev.hasData then do
    let targetFormat :=
      match storeFileName with
      | some fn => if endsWithCsvCI fn then some "CSV" else fileTypeOfCode ev.outputformat
      | none => fileTypeOfCode ev.outputformat
    let r ← convertBinToDocumentAndDownload o ev.binData storeFileName targetFormat
    pure (some r)
  else
    pure none

/-! ### Converter boot (`X2TConverter.initialize` / `doInitialize`)

`initialize` caches a ready module, returns a pending/settled `initPromise`
when one exists, and otherwise starts `doInitialize`.  `doInitialize`'s
`try`/`catch` wraps only the synchronous prefix up to the `return new
Promise(...)` statement, so `this.initPromise = null` runs exactly when
`loadScript()` rejects; a later rejection of the returned promise
(module-missing or the ready-signal timeout) leaves `initPromise` set.
`createWorkingDirectories` catches every `mkdir` error per directory and
never throws, so the ready path always resolves.  The model runs a call to
completion with the boot outcome supplied as a parameter. -/

inductive BootOutcome
  | scriptFail
  | moduleMissing
  | timeout
  | bootOk
deriving DecidableEq, Repr

structure X2TState where
  isReady : Bool
  hasModule : Bool
  /-- `this.initPromise` (`none` = `null`), by promise id. -/
  initP : Option Nat
  hasScriptLoaded : Bool
  /-- Fresh promise id supply. -/
  nextId : Nat
  /-- Settled promises: `true` resolved with the module, `false` rejected. -/
  settled : List (Nat × Bool)
deriving DecidableEq, Repr

/-- What a single `initialize()` call handed back to its caller. -/
inductive InitCall
  | cachedModule
  | joinPromise (id : Nat)
  | newPromise (id : Nat)
deriving DecidableEq, Repr

def x2tInitial : X2TState :=
  { isReady := false, hasModule := false, initP := none,
    hasScriptLoaded := false, nextId := 0, settled := [] }

/-- One `initialize()` call, run to settlement with outcome `o`.  The
returned `InitCall` says whether the caller got the cached module, joined
the existing `initPromise`, or triggered a fresh `doInitialize`. -/
def initStep (s : X2TState) (o : BootOutcome) : InitCall × X2TState :=
  if s.isReady && s.hasModule then (.cachedModule, s)
  else
    match s.initP with
    | some p => (.joinPromise p, s)
    | none =>
      let pid := s.nextId
      match o with
      | .scriptFail =>
        -- loadScript() rejected: the catch clears initPromise ("Reset to allow retry")
        (.newPromise pid,
         { s with nextId := pid + 1, initP := none, settled := (pid, false) :: s.settled })
      | .moduleMissing =>
        -- script loaded, window.Module missing: inner promise rejects, initPromise kept
        (.newPromise pid,
         { s with nextId := pid + 1, hasScriptLoaded := true, initP := some pid,
                  settled := (pid, false) :: s.settled })
      | .timeout =>
        -- ready signal never fired: inner promise rejects, initPromise kept
        (.newPromise pid,
         { s with nextId := pid + 1, hasScriptLoaded := true, initP := some pid,
                  settled := (pid, false) :: s.settled })
      | .bootOk =>
        (.newPromise pid,
         { s with nextId := pid + 1, hasScriptLoaded := true, initP := some pid,
                  isReady := true, hasModule := true,
                  settled := (pid, true) :: s.settled })

/-! ### The editor operation queue (`queueEditorOperation`), sequential issuance

For operations issued one after another (each call made after the previous
operation settled), the queue behaviour is determined by the settled state
of the tail promise: `await editorOperationQueue` rethrows a rejected
tail before the operation body runs and before the tail variable is
replaced; a fulfilled tail lets the body run, and the body's outcome is
always installed into the tail (both `resolveOperation` and
`rejectOperation` are invoked on the respective paths, so the tail is
always settled, never left pending). -/

inductive QTail
  | fulfilled
  | rejected (e : String)
deriving DecidableEq, Repr

instance {ε α : Type} [DecidableEq ε] [DecidableEq α] : DecidableEq (Except ε α) := fun x y =>
  match x, y with
  | .ok a, .ok b => if h : a = b then .isTrue (by rw [h]) else .isFalse (by simp [h])
  | .error e, .error f => if h : e = f then .isTrue (by rw [h]) else .isFalse (by simp [h])
  | .ok _, .error _ => .isFalse (by simp)
  | .error _, .ok _ => .isFalse (by simp)

structure QueueStep where
  result : Except String Unit
  bodyRan : Bool
deriving DecidableEq, Repr

/-- One `queueEditorOperation(op)` call issued against a settled tail. -/
def queueOp (t : QTail) (body : Except String Unit) : QueueStep × QTail :=
  match t with
  | .rejected e => (⟨.error e, false⟩, .rejected e)
  | .fulfilled =>
    match body with
    | .ok _ => (⟨.ok (), true⟩, .fulfilled)
    | .error e => (⟨.error e, true⟩, .rejected e)

/-- Sequentially issued operations. -/
def runQueue (t : QTail) : List (Except String Unit) → List QueueStep × QTail
  | [] => ([], t)
  | b :: bs =>
    let (st, t') := queueOp t b
    let (sts, t'') := runQueue t' bs
    (st :: sts, t'')

/-! ### Event-loop model of `createEditorInstance` (same-tick issuance)

`createEditorInstance` wraps its body in `queueEditorOperation`, whose
first statement is `await editorOperationQueue`; everything after that
`await` — including the installation of the operation's own promise as
the new tail — runs in a later microtask.  The model below is a
deterministic JS event loop (microtask queue, then FIFO timer queue; both
`setTimeout` waits use the same 150 ms delay, so timers fire in
registration order) for create operations.  A task identifier doubles as
the identity of the editor instance it will construct. -/

inductive EditorEvt
  | destroyCalled (instanceId : Nat)
  | containerCleared (taskId : Nat)
  | constructed (instanceId : Nat)
deriving DecidableEq, Repr

/-- Resume points of a create task (one per `await` in the source). -/
inductive TaskStage
  | afterTailAwait
  | afterDestroyWait
  | afterGraceWait
deriving DecidableEq, Repr

structure CTask where
  tid : Nat
  stage : TaskStage
  ownP : Option Nat
deriving DecidableEq, Repr

structure EdState where
  /-- `window.editor`. -/
  editor : Option Nat
  /-- The promise currently stored in `editorOperationQueue`. -/
  queueVar : Nat
  /-- Settled promises (`true` = fulfilled). -/
  settledPs : List (Nat × Bool)
  /-- Continuations parked on a pending promise. -/
  waiters : List (Nat × List CTask)
  micro : List CTask
  timers : List CTask
  nextP : Nat
  trace : List EditorEvt
deriving DecidableEq, Repr

/-- Call `createEditorInstance` (synchronously): the call runs
`await editorOperationQueue` against the current tail.  If that promise is
already settled, the continuation is scheduled as a microtask; otherwise
the continuation parks on the promise. -/
def issueCreate (s : EdState) (k : Nat) : EdState :=
  let t : CTask := ⟨k, .afterTailAwait, none⟩
  match s.settledPs.lookup s.queueVar with
  | some _ => { s with micro := s.micro ++ [t] }
  | none =>
    { s with waiters :=
        (s.queueVar, ((s.waiters.lookup s.queueVar).getD []) ++ [t]) ::
          (s.waiters.filter (fun p => p.1 ≠ s.queueVar)) }

/-- Run a resumed task synchronously up to its next suspension point. -/
def runTask (s : EdState) (t : CTask) : EdState :=
  match t.stage with
  | .afterTailAwait =>
    -- install own (pending) promise as the new tail, then start the body
    let pid := s.nextP
    let s := { s with nextP := pid + 1, queueVar := pid }
    (match s.editor with
     | some e =>
       -- window.editor.destroyEditor(); await 150ms
       { s with trace := s.trace ++ [.destroyCalled e],
                timers := s.timers ++ [⟨t.tid, .afterDestroyWait, some pid⟩] }
     | none =>
       -- no editor: clear container children; await 150ms
       { s with trace := s.trace ++ [.containerCleared t.tid],
                timers := s.timers ++ [⟨t.tid, .afterGraceWait, some pid⟩] })
  | .afterDestroyWait =>
    -- window.editor = undefined; clear container children; await 150ms
    { s with editor := none,
             trace := s.trace ++ [.containerCleared t.tid],
             timers := s.timers ++ [⟨t.tid, .afterGraceWait, t.ownP⟩] }
  | .afterGraceWait =>
    -- window.editor = new DocsAPI.DocEditor(...); settle own promise
    let s := { s with editor := some t.tid, trace := s.trace ++ [.constructed t.tid] }
    match t.ownP with
    | some p =>
      { s with settledPs := (p, true) :: s.settledPs,
               micro := s.micro ++ ((s.waiters.lookup p).getD []),
               waiters := s.waiters.filter (fun q => q.1 ≠ p) }
    | none => s

/-- One event-loop step: drain microtasks first, then the timer queue. -/
def loopStep (s : EdState) : EdState :=
  match s.micro with
  | t :: rest => runTask { s with micro := rest } t
  | [] =>
    match s.timers with
    | t :: rest => runTask { s with timers := rest } t
    | [] => s

def loopRun : Nat → EdState → EdState
  | 0, s => s
  | n + 1, s => loopRun n (loopStep s)

/-- Initial page state: no editor, `editorOperationQueue = Promise.resolve()`
(promise 0, already fulfilled). -/
def edInitial : EdState :=
  { editor := none, queueVar := 0, settledPs := [(0, true)], waiters := [],
    micro := [], timers := [], nextP := 1, trace := [] }

/-- The scenario of the claim: two `createEditorInstance` calls issued in
the same synchronous tick, then the event loop runs to quiescence. -/
def twoCreatesFinal : EdState := loopRun 6 (issueCreate (issueCreate edInitial 1) 2)

/-- Instances that are live (constructed and never destroyed) in a trace. -/
def liveInstances (tr : List EditorEvt) : List Nat :=
  (tr.filterMap (fun e => match e with | .constructed k => some k | _ => none)).filter
    (fun k => !(tr.contains (.destroyCalled k)))

/-! ### `handleWriteFile` -/

/-- The `data` (image bytes) field of a `writeFile` event: JS `undefined`,
some non-`Uint8Array` value, or an actual byte array. -/
inductive ImgField
  | missingI
  | notBytes
  | bytesI (l : List Nat)
deriving DecidableEq, Repr

/-- The `file` (name) field: JS `undefined`, a non-string value, or a string. -/
inductive NameField
  | missingN
  | notStr
  | strN (s : String)
deriving DecidableEq, Repr

structure WriteFileEventData where
  imageData : ImgField
  fileName : NameField
deriving DecidableEq, Repr

structure WriteFileEvent where
  data : Option WriteFileEventData
  hasCallbackFn : Bool
deriving DecidableEq, Repr

inductive EditorCmd
  | setImageUrls (urls : List (String × String))
  | writeFileOk (path : String) (imgName : String)
  | writeFileFail (err : String)
deriving DecidableEq, Repr

/-- The observable outcome of `handleWriteFile`: commands sent to the
editor, the media map afterwards, and the failure payload given to
`event.callback` when present. -/
structure WriteFileOut where
  cmds : List EditorCmd
  media : List (String × String)
  callbackFail : Option String
deriving DecidableEq, Repr

/-- The extension-to-MIME table of the module-level
`getMimeTypeFromExtension` (default `image/png`). -/
def imageMimeOf (extension : String) : String :=
  (([("png", "image/png"), ("jpg", "image/jpeg"), ("jpeg", "image/jpeg"),
     ("gif", "image/gif"), ("bmp", "image/bmp"), ("webp", "image/webp"),
     ("svg", "image/svg+xml"), ("ico", "image/x-icon"), ("tiff", "image/tiff"),
     ("tif", "image/tiff")] : List (String × String)).lookup
    (jsToLower extension)).getD "image/png"

/-- JS object insertion `media[key] = url` on an association list. -/
def jsInsert (m : List (String × String)) (key url : String) : List (String × String) :=
  if m.any (fun p => p.1 = key) then
    m.map (fun p => if p.1 = key then (key, url) else p)
  else m ++ [(key, url)]

/-- The body of `handleWriteFile`'s `try` block: `Except` is the JS throw. -/
def handleWriteFileBody (media : List (String × String)) (mkUrl : List Nat → String)
    (ev : WriteFileEvent) : Except String (List EditorCmd × List (String × String)) :=
  match ev.data with
  | none => .ok ([], media)   -- "No data provided in writeFile event": early return
  | some d =>
    match d.imageData with
    | .bytesI l =>
      match d.fileName with
      | .strN s =>
        if s = "" then .error "Invalid file name"
        else
          let fileExtension :=
            let e := jsToLower (String.mk ((splitDot s.data).getLast?.getD []))
            if e = "" then "png" else e
          let _mimeType := imageMimeOf fileExtension
          let objectUrl := mkUrl l
          let media' := jsInsert media ("media/" ++ s) objectUrl
          .ok ([.setImageUrls media', .writeFileOk objectUrl s], media')
      | _ => .error "Invalid file name"
    | _ => .error "Invalid image data: expected Uint8Array"

/-- `handleWriteFile`: the `try`/`catch` around the body guarantees the
function itself never throws — its type here is total.  Commands are only
delivered when an editor exists (`window.editor?.sendCommand` /
the guarded failure report). -/
def handleWriteFile (editorPresent : Bool) (media : List (String × String))
    (mkUrl : List Nat → String) (ev : WriteFileEvent) : WriteFileOut :=
  match handleWriteFileBody media mkUrl ev with
  | .ok (cmds, media') =>
    { cmds := if editorPresent then cmds else [], media := media', callbackFail := none }
  | .error e =>
    { cmds := if editorPresent then [.writeFileFail e] else [],
      media := media,
      callbackFail := if ev.hasCallbackFn then some e else none }

/-! ### Running the effect monad -/

theorem ConvM.bind_apply {α β : Type} (m : ConvM α) (f : α → ConvM β) (log : List Effect) :
    (m >>= f) log = match m log with
      | (.ok a, log') => f a log'
      | (.error e, log') => (.error e, log') := rfl

theorem ConvM.pure_apply {α : Type} (a : α) (log : List Effect) :
    (pure a : ConvM α) log = (.ok a, log) := rfl

theorem emit_apply (ef : Effect) (log : List Effect) : emit ef log = (.ok (), log ++ [ef]) := rfl

theorem throwC_apply {α : Type} (e : String) (log : List Effect) :
    (throwC e : ConvM α) log = (.error e, log) := rfl

/-- Evaluation of the CSV branch of `convertDocument` when every
collaborator succeeds. -/
theorem convertDocument_csv_run (o : Oracle) (mimeExt : Option String)
    (fileName : String) (fileBytes : List Nat)
    (xlsxName : String) (xlsxData outBin : List Nat)
    (hext : resolveExtension mimeExt fileName = "csv")
    (hne : fileBytes.length ≠ 0)
    (hcsv : convertCsvToXlsx o fileBytes fileName = .ok (xlsxName, xlsxData))
    (hmain : o.mainResult = 0)
    (hread : o.readFileRes ("/working/" ++ sanitizeFileName xlsxName ++ ".bin") = .ok outBin) :
    convertDocument o mimeExt fileName fileBytes [] =
      (.ok { fileName := sanitizeFileName fileName, type := .cell,
             bin := outBin, media := readMediaFiles o },
       [.fsWrite ("/working/" ++ sanitizeFileName xlsxName) (.bytes xlsxData),
        .fsWrite "/working/params.xml"
          (.text (createConversionParams ("/working/" ++ sanitizeFileName xlsxName)
            ("/working/" ++ sanitizeFileName xlsxName ++ ".bin") "")),
        .runConvert "/working/params.xml"]) := by
  unfold convertDocument
  rw [hext]
  simp only [show lookupDocType "csv" = some DocType.cell from by decide]
  simp only [show jsToLower "csv" = "csv" from by decide, if_pos rfl]
  rw [if_neg hne]
  unfold tryCatchC
  rw [hcsv]
  simp only [ConvM.bind_apply, emit_apply, throwC_apply, ConvM.pure_apply,
    executeConversion, fsReadFile, ofExceptC, hmain, hread]
  simp

/-- Evaluation of the standard (non-CSV) branch of `convertDocument` when
the module call and the output read succeed, for an arbitrary media
oracle. -/
theorem convertDocument_std_run (o : Oracle) (mimeExt : Option String)
    (fileName : String) (fileBytes : List Nat) (dt : DocType) (outBin : List Nat)
    (hlk : lookupDocType (resolveExtension mimeExt fileName) = some dt)
    (hncsv : jsToLower (resolveExtension mimeExt fileName) ≠ "csv")
    (hmain : o.mainResult = 0)
    (hread : o.readFileRes ("/working/" ++ sanitizeFileName fileName ++ ".bin") = .ok outBin) :
    convertDocument o mimeExt fileName fileBytes [] =
      (.ok { fileName := sanitizeFileName fileName, type := dt,
             bin := outBin, media := readMediaFiles o },
       [.fsWrite ("/working/" ++ sanitizeFileName fileName) (.bytes fileBytes),
        .fsWrite "/working/params.xml"
          (.text (createConversionParams ("/working/" ++ sanitizeFileName fileName)
            ("/working/" ++ sanitizeFileName fileName ++ ".bin") "")),
        .runConvert "/working/params.xml"]) := by
  unfold convertDocument
  simp only [hlk]
  rw [if_neg hncsv]
  unfold tryCatchC
  simp only [ConvM.bind_apply, emit_apply, throwC_apply, ConvM.pure_apply,
    executeConversion, fsReadFile, ofExceptC, hmain, hread]
  simp

/-- Evaluation of the CSV branch of `convertBinToDocumentAndDownload` when
every collaborator succeeds: the bin is first converted to an
intermediate XLSX, which SheetJS turns into BOM-prefixed CSV bytes. -/
theorem convertBin_csv_run (o : Oracle) (bin : List Nat) (origName : Option String)
    (targetExt : String) (xlsxBytes : List Nat) (wb : Workbook)
    (ht : jsToUpper targetExt = "CSV")
    (hmain : o.mainResult = 0)
    (hread : o.readFileRes
      ("/working/" ++ (stripLastExt (sanitizeFileNameJS origName) ++ ".xlsx")) = .ok xlsxBytes)
    (hlib : o.xlsxLib = .ok ())
    (hwb : o.xlsxRead xlsxBytes = .ok wb) :
    convertBinToDocumentAndDownload o bin origName (some targetExt) [] =
      (.ok { fileName := stripLastExt (sanitizeFileNameJS origName) ++ "." ++ jsToLower targetExt,
             data := [0xef, 0xbb, 0xbf] ++
               o.utf8Encode (o.sheetToCsv (wb.sheets (wb.sheetNames.head?.getD ""))) },
       [.fsWrite ("/working/" ++ (stripLastExt (sanitizeFileNameJS origName) ++ ".bin"))
          (.bytes bin),
        .fsWrite "/working/params.xml"
          (.text (createConversionParams
            ("/working/" ++ (stripLastExt (sanitizeFileNameJS origName) ++ ".bin"))
            ("/working/" ++ (stripLastExt (sanitizeFileNameJS origName) ++ ".xlsx")) "")),
        .runConvert "/working/params.xml",
        .save (stripLastExt (sanitizeFileNameJS origName) ++ "." ++ jsToLower targetExt)
          ([0xef, 0xbb, 0xbf] ++
            o.utf8Encode (o.sheetToCsv (wb.sheets (wb.sheetNames.head?.getD ""))))]) := by
  unfold convertBinToDocumentAndDownload
  simp only [Option.getD_some]
  rw [if_pos ht]
  unfold tryCatchC
  simp only [ConvM.bind_apply, emit_apply, throwC_apply, ConvM.pure_apply,
    executeConversion, fsReadFile, ofExceptC, hmain, hread, hlib, hwb]
  simp

/-- Membership in the fold used by `readMediaFiles`. -/
theorem mem_mediaFold (o : Oracle) (key url : String) : ∀ fs : List String,
    ((key, url) ∈ fs.foldr
      (fun f acc =>
        match o.readFileRes ("/working/media/" ++ f) with
        | .error _ => acc
        | .ok bytes => ("media/" ++ f, o.mkUrl bytes) :: acc) []) ↔
    ∃ f, f ∈ fs ∧ ∃ bytes, o.readFileRes ("/working/media/" ++ f) = .ok bytes
      ∧ key = "media/" ++ f ∧ url = o.mkUrl bytes
  | [] => by simp
  | f :: fs => by
    rcases h : o.readFileRes ("/working/media/" ++ f) with e | bytes
    · simp only [List.foldr_cons, h]
      rw [mem_mediaFold o key url fs]
      constructor
      · rintro ⟨g, hg, b, hb, hk, hu⟩
        exact ⟨g, List.mem_cons_of_mem _ hg, b, hb, hk, hu⟩
      · rintro ⟨g, hg, b, hb, hk, hu⟩
        rcases List.mem_cons.mp hg with rfl | hg
        · rw [h] at hb
          cases hb
        · exact ⟨g, hg, b, hb, hk, hu⟩
    · simp only [List.foldr_cons, h, List.mem_cons]
      rw [mem_mediaFold o key url fs]
      constructor
      · rintro (hp | ⟨g, hg, b, hb, hk, hu⟩)
        · cases hp
          exact ⟨f, Or.inl rfl, bytes, h, rfl, rfl⟩
        · exact ⟨g, Or.inr hg, b, hb, hk, hu⟩
      · rintro ⟨g, hg, b, hb, hk, hu⟩
        rcases hg with rfl | hg
        · rw [h] at hb
          cases hb
          left
          rw [hk, hu]
        · right
          exact ⟨g, hg, b, hb, hk, hu⟩

/-- The output filename of the CSV save branch carries a case-insensitive
`.csv` suffix. -/
theorem endsWithCsvCI_dotcsv (s : String) : endsWithCsvCI (s ++ "." ++ "csv") = true := by
  have h1 : (s ++ "." ++ "csv").data = s.data ++ ['.', 'c', 's', 'v'] := by
    rw [String.data_append, String.data_append, List.append_assoc]
    rfl
  simp only [endsWithCsvCI]
  rw [h1, List.map_append]
  rw [show List.map Char.toLower ['.', 'c', 's', 'v'] = ['.', 'c', 's', 'v'] from by decide]
  have hd : (List.map Char.toLower s.data ++ ['.', 'c', 's', 'v']).drop
      ((List.map Char.toLower s.data ++ ['.', 'c', 's', 'v']).length - 4)
      = ['.', 'c', 's', 'v'] := by
    have hlen : (List.map Char.toLower s.data ++ ['.', 'c', 's', 'v']).length - 4
        = (List.map Char.toLower s.data).length := by simp
    rw [hlen, List.drop_left]
  rw [hd]
  simp [Nat.le_add_left]

/-! ### A concrete collaborator instantiation, used by the witnesses -/

def wbTest : Workbook :=
  { sheetNames := ["Sheet1", "Sheet2"], sheets := fun n => "sheet:" ++ n }

def wOracle : Oracle :=
  { readFileRes := fun p => if p = "/working/media/bad.png" then .error "EIO" else .ok [7, 7, 7]
    readdirRes := fun _ => .ok [".", "..", "image1.png", "bad.png", "image2.png"]
    mainResult := 0
    mkUrl := fun l => "blob:" ++ toString l.length
    utf8Decode := fun _ => "a,b"
    xlsxLib := .ok ()
    csvRead := fun _ => .ok wbTest
    xlsxWrite := fun _ => [80, 75]
    xlsxRead := fun _ => .ok wbTest
    sheetToCsv := fun s => "csv:" ++ s
    utf8Encode := fun s => s.data.map Char.toNat }

/-! ### Claim C4 -/

/-- Claim C4 (counterexample): filename sanitization is neither idempotent
nor disallowed-character free as claimed.  `sanitizeFileName "&..txt"`
yields `"..txt"`, which a second application turns into `"file.txt"`; and
`sanitizeFileName "a.b/c"` keeps the slash, because the popped extension
is never sanitized. -/
theorem c4_sanitize_counterexample :
    sanitizeFileName (sanitizeFileName "&..txt") ≠ sanitizeFileName "&..txt"
    ∧ '/' ∈ (sanitizeFileName "a.b/c").data := by decide

/-- Claim C4 (amended): sanitization stabilizes after three applications
(sanitizing a thrice-sanitized name returns it unchanged) rather than
after one, and only the stem of the output — everything before the final,
popped extension — is guaranteed free of the disallowed characters
(`/ ? < > \ : * | "`, the control range, and the unsafe class); the
extension after the final dot is copied through unsanitized. -/
theorem c4_sanitize_stabilizes_and_stem_clean (s : String) :
    sanitizeFileName (sanitizeFileName (sanitizeFileName (sanitizeFileName s)))
      = sanitizeFileName (sanitizeFileName (sanitizeFileName s))
    ∧ ∀ c ∈ stemOf (sanitizeFileName s),
        isIllegalC c = false ∧ isCtlC c = false ∧ isUnsafeC c = false := by
  constructor
  · exact congrArg String.mk (sanitizeL_stabilizes s.data)
  · intro c hc
    obtain ⟨n, e, hshape, he, hene, hq1⟩ := sanitizeL_shape s.data
    have hdata : (sanitizeFileName s).data = n ++ '.' :: e := hshape
    unfold stemOf at hc
    rw [hdata, splitDot_append he, List.dropLast_concat, joinDot_splitDot] at hc
    exact hq1.1 c hc

/-- Witness for the amended C4 theorem at a concrete input. -/
theorem c4_sanitize_witness :
    ('r' ∈ stemOf (sanitizeFileName "report.csv")
      ∧ (isIllegalC 'r' = false ∧ isCtlC 'r' = false ∧ isUnsafeC 'r' = false))
    ∧ sanitizeFileName (sanitizeFileName (sanitizeFileName (sanitizeFileName "report.csv")))
        = sanitizeFileName (sanitizeFileName (sanitizeFileName "report.csv")) :=
  ⟨⟨by decide, (c4_sanitize_stabilizes_and_stem_clean "report.csv").2 'r' (by decide)⟩,
   (c4_sanitize_stabilizes_and_stem_clean "report.csv").1⟩

/-! ### Claim C6 -/

/-- Claim C6: a file whose resolved extension is not in the fixed
extension→type table makes `convertDocument` fail immediately with the
`Unsupported file format` error, with the effect log unchanged — no
virtual-filesystem write happens — and it never silently defaults to a
document type (the error branch is taken exactly when the lookup is
empty). -/
theorem c6_unsupported_extension_fails_before_writes (o : Oracle)
    (mimeExt : Option String) (fileName : String) (fileBytes : List Nat)
    (log : List Effect)
    (h : lookupDocType (resolveExtension mimeExt fileName) = none) :
    convertDocument o mimeExt fileName fileBytes log =
      (.error ("Unsupported file format: " ++ resolveExtension mimeExt fileName), log) := by
  unfold convertDocument
  rw [h]
  rfl

/-- Witness for C6: extension `zzz` is unregistered and fails with no
writes. -/
theorem c6_witness :
    lookupDocType (resolveExtension none "a.zzz") = none
    ∧ convertDocument wOracle none "a.zzz" [1, 2, 3] [] =
        (.error ("Unsupported file format: " ++ resolveExtension none "a.zzz"), []) :=
  ⟨by decide,
   c6_unsupported_extension_fails_before_writes wOracle none "a.zzz" [1, 2, 3] [] (by decide)⟩

/-! ### Claim C7 -/

/-- Claim C7: a CSV file successfully opened via `convertDocument` reports
the sanitized ORIGINAL CSV filename (not the synthesized `.xlsx` name) and
document type `cell`, although the conversion re-enters the standard path
on the synthesized XLSX bytes (the effect log stages the synthesized XLSX
file, not the CSV). -/
theorem c7_csv_open_keeps_original_name (o : Oracle) (mimeExt : Option String)
    (fileName xlsxName : String) (fileBytes xlsxData outBin : List Nat)
    (hext : resolveExtension mimeExt fileName = "csv")
    (hne : fileBytes.length ≠ 0)
    (hcsv : convertCsvToXlsx o fileBytes fileName = .ok (xlsxName, xlsxData))
    (hmain : o.mainResult = 0)
    (hread : o.readFileRes ("/working/" ++ sanitizeFileName xlsxName ++ ".bin") = .ok outBin) :
    ∃ r log, convertDocument o mimeExt fileName fileBytes [] = (.ok r, log)
      ∧ r.fileName = sanitizeFileName fileName
      ∧ r.type = DocType.cell
      ∧ Effect.fsWrite ("/working/" ++ sanitizeFileName xlsxName) (.bytes xlsxData) ∈ log :=
  ⟨_, _, convertDocument_csv_run o mimeExt fileName fileBytes xlsxName xlsxData outBin
      hext hne hcsv hmain hread, rfl, rfl, by simp⟩

/-- Witness for C7: opening `report.csv` through the concrete collaborators
reports `report.csv` (sanitization is the identity here) and type `cell`. -/
theorem c7_witness :
    (resolveExtension none "report.csv" = "csv"
      ∧ convertCsvToXlsx wOracle [65] "report.csv" = .ok ("report.xlsx", [80, 75])
      ∧ sanitizeFileName "report.csv" = "report.csv")
    ∧ ∃ r log, convertDocument wOracle none "report.csv" [65] [] = (.ok r, log)
        ∧ r.fileName = sanitizeFileName "report.csv"
        ∧ r.type = DocType.cell
        ∧ Effect.fsWrite ("/working/" ++ sanitizeFileName "report.xlsx") (.bytes [80, 75]) ∈ log :=
  ⟨⟨by decide, by decide, by decide⟩,
   c7_csv_open_keeps_original_name wOracle none "report.csv" "report.xlsx" [65] [80, 75] [7, 7, 7]
     (by decide) (by decide) (by decide) (by decide) (by decide)⟩

/-! ### Claim C8 -/

/-- Claim C8: media extraction is resilient.  (1) A failing directory
listing yields the empty map; (2) for a successful listing, the extracted
map holds exactly the entries `media/<name> ↦ URL` of the non-pseudo
entries whose individual read succeeded — so one failing file only drops
its own entry and keeps the other N−1; (3) a conversion through the
standard path succeeds whatever the media oracle does, since
`readMediaFiles` is total. -/
theorem c8_media_extraction_resilient (o : Oracle) :
    (∀ err, o.readdirRes "/working/media/" = .error err → readMediaFiles o = [])
    ∧ (∀ files, o.readdirRes "/working/media/" = .ok files →
        ∀ key url, ((key, url) ∈ readMediaFiles o ↔
          ∃ f, f ∈ files ∧ f ≠ "." ∧ f ≠ ".." ∧
            ∃ bytes, o.readFileRes ("/working/media/" ++ f) = .ok bytes
              ∧ key = "media/" ++ f ∧ url = o.mkUrl bytes))
    ∧ (∀ mimeExt fileName fileBytes dt outBin,
        lookupDocType (resolveExtension mimeExt fileName) = some dt →
        jsToLower (resolveExtension mimeExt fileName) ≠ "csv" →
        o.mainResult = 0 →
        o.readFileRes ("/working/" ++ sanitizeFileName fileName ++ ".bin") = .ok outBin →
        ∃ log, convertDocument o mimeExt fileName fileBytes [] =
          (.ok { fileName := sanitizeFileName fileName, type := dt,
                 bin := outBin, media := readMediaFiles o }, log)) := by
  refine ⟨?_, ?_, ?_⟩
  · intro err h
    unfold readMediaFiles
    rw [h]
  · intro files hfiles key url
    unfold readMediaFiles
    rw [hfiles]
    rw [mem_mediaFold]
    constructor
    · rintro ⟨f, hf, b, hb, hk, hu⟩
      obtain ⟨hfm, hcond⟩ := List.mem_filter.mp hf
      simp only [Bool.and_eq_true, decide_eq_true_eq, ne_eq] at hcond
      exact ⟨f, hfm, hcond.1, hcond.2, b, hb, hk, hu⟩
    · rintro ⟨f, hfm, h1, h2, b, hb, hk, hu⟩
      exact ⟨f, List.mem_filter.mpr ⟨hfm, by simp [h1, h2]⟩, b, hb, hk, hu⟩
  · intro mimeExt fileName fileBytes dt outBin hlk hncsv hmain hread
    exact ⟨_, convertDocument_std_run o mimeExt fileName fileBytes dt outBin
      hlk hncsv hmain hread⟩

/-- Witness for C8: with a five-entry listing whose `bad.png` read fails,
the map keeps exactly the other two real entries, and a `docx` conversion
through the same oracle still succeeds. -/
theorem c8_witness :
    readMediaFiles wOracle =
      [("media/image1.png", "blob:3"), ("media/image2.png", "blob:3")]
    ∧ (("media/image1.png", "blob:3") ∈ readMediaFiles wOracle)
    ∧ (∃ log, convertDocument wOracle (some "docx") "f.docx" [1] [] =
        (.ok { fileName := sanitizeFileName "f.docx", type := .word,
               bin := [7, 7, 7], media := readMediaFiles wOracle }, log)) :=
  ⟨by decide,
   ((c8_media_extraction_resilient wOracle).2.1
      [".", "..", "image1.png", "bad.png", "image2.png"] rfl
      "media/image1.png" "blob:3").mpr
     ⟨"image1.png", by decide, by decide, by decide, [7, 7, 7], by decide, rfl, by decide⟩,
   (c8_media_extraction_resilient wOracle).2.2 (some "docx") "f.docx" [1] .word [7, 7, 7]
     (by decide) (by decide) (by decide) (by decide)⟩

/-! ### Claim C9 -/

/-- Claim C9: a successful save with target extension CSV produces a byte
array that starts with the UTF-8 byte-order marker `EF BB BF` whatever the
input was, and the serialized text is `sheet_to_csv` of the FIRST sheet of
the intermediate workbook only. -/
theorem c9_csv_save_bom_and_first_sheet (o : Oracle) (bin : List Nat)
    (origName : Option String) (targetExt : String) (xlsxBytes : List Nat) (wb : Workbook)
    (ht : jsToUpper targetExt = "CSV")
    (hmain : o.mainResult = 0)
    (hread : o.readFileRes
      ("/working/" ++ (stripLastExt (sanitizeFileNameJS origName) ++ ".xlsx")) = .ok xlsxBytes)
    (hlib : o.xlsxLib = .ok ())
    (hwb : o.xlsxRead xlsxBytes = .ok wb) :
    ∃ r log, convertBinToDocumentAndDownload o bin origName (some targetExt) [] = (.ok r, log)
      ∧ r.data.take 3 = [0xef, 0xbb, 0xbf]
      ∧ r.data.drop 3 = o.utf8Encode (o.sheetToCsv (wb.sheets (wb.sheetNames.head?.getD "")))
      ∧ Effect.save r.fileName r.data ∈ log :=
  ⟨_, _, convertBin_csv_run o bin origName targetExt xlsxBytes wb ht hmain hread hlib hwb,
   rfl, rfl, by simp⟩

/-- Witness for C9: saving through the concrete collaborators (a BOM-free
two-sheet workbook) yields BOM-prefixed bytes of the first sheet only. -/
theorem c9_witness :
    (jsToUpper "CSV" = "CSV" ∧ wbTest.sheetNames = ["Sheet1", "Sheet2"])
    ∧ ∃ r log, convertBinToDocumentAndDownload wOracle [1, 2] (some "book.csv")
        (some "CSV") [] = (.ok r, log)
      ∧ r.data.take 3 = [0xef, 0xbb, 0xbf]
      ∧ r.data.drop 3 =
          wOracle.utf8Encode (wOracle.sheetToCsv (wbTest.sheets (wbTest.sheetNames.head?.getD "")))
      ∧ Effect.save r.fileName r.data ∈ log :=
  ⟨⟨by decide, rfl⟩,
   c9_csv_save_bom_and_first_sheet wOracle [1, 2] (some "book.csv") "CSV" [7, 7, 7] wbTest
     (by decide) (by decide) (by decide) (by decide) rfl⟩

/-! ### Claim C5 -/

/-- Claim C5: whatever output format code the editor reports in a save
event, when the tracked document's filename ends in `.csv`
(case-insensitively) the save pipeline forces the CSV target: the output
file's name carries the `.csv` suffix, its bytes are the BOM-prefixed CSV
serialization produced by the bin→XLSX→CSV path (the effect log shows the
intermediate conversion targeting the `.xlsx` staging file), not an XLSX
file. -/
theorem c5_csv_override_on_save (o : Oracle) (fn : String) (ev : SaveEvent)
    (xlsxBytes : List Nat) (wb : Workbook)
    (hcsv : endsWithCsvCI fn = true)
    (hdata : ev.hasData = true)
    (hmain : o.mainResult = 0)
    (hread : o.readFileRes
      ("/working/" ++ (stripLastExt (sanitizeFileName fn) ++ ".xlsx")) = .ok xlsxBytes)
    (hlib : o.xlsxLib = .ok ())
    (hwb : o.xlsxRead xlsxBytes = .ok wb) :
    ∃ r log, handleSaveDocument o (some fn) ev [] = (.ok (some r), log)
      ∧ r.fileName = stripLastExt (sanitizeFileName fn) ++ "." ++ "csv"
      ∧ endsWithCsvCI r.fileName = true
      ∧ r.data = [0xef, 0xbb, 0xbf] ++
          o.utf8Encode (o.sheetToCsv (wb.sheets (wb.sheetNames.head?.getD "")))
      ∧ Effect.fsWrite "/working/params.xml"
          (.text (createConversionParams
            ("/working/" ++ (stripLastExt (sanitizeFileName fn) ++ ".bin"))
            ("/working/" ++ (stripLastExt (sanitizeFileName fn) ++ ".xlsx")) "")) ∈ log
      ∧ Effect.save r.fileName r.data ∈ log := by
  have hrun := convertBin_csv_run o ev.binData (some fn) "CSV" xlsxBytes wb (by decide)
    hmain hread hlib hwb
  have key : handleSaveDocument o (some fn) ev [] =
      (.ok (some { fileName := stripLastExt (sanitizeFileName fn) ++ "." ++ "csv",
                   data := [0xef, 0xbb, 0xbf] ++
                     o.utf8Encode (o.sheetToCsv (wb.sheets (wb.sheetNames.head?.getD ""))) }),
       [.fsWrite ("/working/" ++ (stripLastExt (sanitizeFileName fn) ++ ".bin")) (.bytes ev.binData),
        .fsWrite "/working/params.xml"
          (.text (createConversionParams
            ("/working/" ++ (stripLastExt (sanitizeFileName fn) ++ ".bin"))
            ("/working/" ++ (stripLastExt (sanitizeFileName fn) ++ ".xlsx")) "")),
        .runConvert "/working/params.xml",
        .save (stripLastExt (sanitizeFileName fn) ++ "." ++ "csv")
          ([0xef, 0xbb, 0xbf] ++
            o.utf8Encode (o.sheetToCsv (wb.sheets (wb.sheetNames.head?.getD ""))))]) := by
    unfold handleSaveDocument
    simp only [hdata, if_true, hcsv]
    rw [ConvM.bind_apply, hrun]
    rw [show jsToLower "CSV" = "csv" from by decide]
    rfl
  exact ⟨_, _, key, rfl, endsWithCsvCI_dotcsv _, rfl, by simp, by simp⟩

/-- Witness for C5: the store tracks `Data.CSV`, the editor reports
output format 257 (XLSX), and the saved file is still a `.csv`. -/
theorem c5_witness :
    (endsWithCsvCI "Data.CSV" = true ∧ fileTypeOfCode 257 = some "XLSX")
    ∧ ∃ r log, handleSaveDocument wOracle (some "Data.CSV") ⟨true, [9], 257⟩ [] =
        (.ok (some r), log)
      ∧ r.fileName = stripLastExt (sanitizeFileName "Data.CSV") ++ "." ++ "csv"
      ∧ endsWithCsvCI r.fileName = true
      ∧ r.data = [0xef, 0xbb, 0xbf] ++
          wOracle.utf8Encode
            (wOracle.sheetToCsv (wbTest.sheets (wbTest.sheetNames.head?.getD "")))
      ∧ Effect.fsWrite "/working/params.xml"
          (.text (createConversionParams
            ("/working/" ++ (stripLastExt (sanitizeFileName "Data.CSV") ++ ".bin"))
            ("/working/" ++ (stripLastExt (sanitizeFileName "Data.CSV") ++ ".xlsx")) "")) ∈ log
      ∧ Effect.save r.fileName r.data ∈ log :=
  ⟨⟨by decide, by decide⟩,
   c5_csv_override_on_save wOracle "Data.CSV" ⟨true, [9], 257⟩ [7, 7, 7] wbTest
     (by decide) rfl (by decide) (by decide) (by decide) rfl⟩

/-! ### Claim C2 -/

/-- Claim C2 (counterexample): after a ready-signal timeout the shared
in-flight promise is NOT cleared — `initPromise` still holds the rejected
promise — and a subsequent `initialize` call (even one whose boot would
succeed) merely joins that same rejected promise instead of starting a
fresh boot attempt. -/
theorem c2_init_counterexample :
    (initStep x2tInitial .timeout).2.initP = some 0
    ∧ (initStep x2tInitial .timeout).2.settled.lookup 0 = some false
    ∧ initStep (initStep x2tInitial .timeout).2 .bootOk =
        (.joinPromise 0, (initStep x2tInitial .timeout).2) := by decide

/-- Claim C2 (amended): only a script-load failure clears the in-flight
promise, after which a subsequent call starts a fresh boot; a
module-missing or ready-signal-timeout failure leaves `initPromise`
holding the rejected promise, and every subsequent call joins that same
rejection without a new boot attempt; a successful boot is cached — every
later call returns the cached module and leaves the state unchanged. -/
theorem c2_init_promise_semantics (s : X2TState) (o : BootOutcome)
    (hnr : (s.isReady && s.hasModule) = false) (hip : s.initP = none) :
    (o = .scriptFail →
      (initStep s o).2.initP = none
      ∧ ∀ o₂, (initStep (initStep s o).2 o₂).1 = .newPromise (s.nextId + 1))
    ∧ ((o = .moduleMissing ∨ o = .timeout) →
      (initStep s o).2.initP = some s.nextId
      ∧ (initStep s o).2.settled.lookup s.nextId = some false
      ∧ ∀ o₂, initStep (initStep s o).2 o₂ = (.joinPromise s.nextId, (initStep s o).2))
    ∧ (o = .bootOk →
      (initStep s o).2.isReady = true ∧ (initStep s o).2.hasModule = true
      ∧ ∀ o₂, initStep (initStep s o).2 o₂ = (.cachedModule, (initStep s o).2)) := by
  refine ⟨?_, ?_, ?_⟩
  · rintro rfl
    constructor
    · simp [initStep, hnr, hip]
    · intro o₂
      cases o₂ <;> simp [initStep, hnr, hip]
  · rintro (rfl | rfl) <;>
      refine ⟨by simp [initStep, hnr, hip], by simp [initStep, hnr, hip], fun o₂ => ?_⟩ <;>
      cases o₂ <;> simp [initStep, hnr, hip]
  · rintro rfl
    refine ⟨by simp [initStep, hnr, hip], by simp [initStep, hnr, hip], fun o₂ => ?_⟩
    cases o₂ <;> simp [initStep, hnr, hip]

/-- Witness for the amended C2 theorem, at the initial state with a
module-missing failure followed by a would-succeed call. -/
theorem c2_init_witness :
    ((x2tInitial.isReady && x2tInitial.hasModule) = false ∧ x2tInitial.initP = none)
    ∧ (initStep x2tInitial .moduleMissing).2.initP = some 0
    ∧ initStep (initStep x2tInitial .moduleMissing).2 .bootOk =
        (.joinPromise 0, (initStep x2tInitial .moduleMissing).2) :=
  ⟨⟨by decide, by decide⟩,
   ((c2_init_promise_semantics x2tInitial .moduleMissing (by decide) (by decide)).2.1
      (Or.inl rfl)).1,
   ((c2_init_promise_semantics x2tInitial .moduleMissing (by decide) (by decide)).2.1
      (Or.inl rfl)).2.2 .bootOk⟩

/-! ### Claim C3 -/

/-- Claim C3 (counterexample): after an operation whose body throws, the
tail is settled (rejected) — but a subsequently queued operation does NOT
execute its body: its initial `await` of the rejected tail rethrows
first, so its step records `bodyRan = false`. -/
theorem c3_queue_counterexample :
    (runQueue .fulfilled [.error "boom", .ok ()]).1 =
      [⟨.error "boom", true⟩, ⟨.error "boom", false⟩]
    ∧ (runQueue .fulfilled [.error "boom", .ok ()]).2 = .rejected "boom" := by decide

/-- Claim C3 (amended): a throwing operation still settles the tail (it is
rejected, not left pending), but the rejection is permanent poison: every
subsequently queued operation rethrows it from the initial `await`, never
runs its body, and never replaces the tail, so all later operations fail
with the original error. -/
theorem c3_rejected_tail_poisons_queue (e : String) (ops : List (Except String Unit)) :
    queueOp .fulfilled (.error e) = (⟨.error e, true⟩, .rejected e)
    ∧ runQueue (.rejected e) ops =
        (ops.map (fun _ => ⟨.error e, false⟩), .rejected e) := by
  refine ⟨rfl, ?_⟩
  induction ops with
  | nil => rfl
  | cons b bs ih => simp [runQueue, queueOp, ih]

/-! ### Claim C1 -/

/-- Claim C1 (evaluation at the failing input): two `createEditorInstance`
calls issued in the same synchronous tick.  Both calls `await` the
original resolved tail — the tail variable is replaced only after each
`await` resumes — so the two operation bodies interleave: the container is
cleared twice, then both editors are constructed, no destroy is ever
invoked, and the run ends with two live instances (the first leaked). -/
theorem c1_same_tick_creates_interleave :
    twoCreatesFinal.trace =
      [.containerCleared 1, .containerCleared 2, .constructed 1, .constructed 2]
    ∧ (EditorEvt.destroyCalled 1 ∉ twoCreatesFinal.trace)
    ∧ liveInstances twoCreatesFinal.trace = [1, 2]
    ∧ twoCreatesFinal.editor = some 2 := by decide

/-! ### Claim C10 -/

/-- A `writeFile` payload the source rejects: non-`Uint8Array` data, or a
missing / non-string / empty filename. -/
def invalidWriteFilePayload (d : WriteFileEventData) : Bool :=
  (match d.imageData with | .bytesI _ => false | _ => true) ||
  (match d.fileName with | .strN s => s == "" | _ => true)

/-- The message of the first validation failure (`imageData` is checked
before `file`). -/
def writeFileErrMsg (d : WriteFileEventData) : String :=
  match d.imageData with
  | .bytesI _ => "Invalid file name"
  | _ => "Invalid image data: expected Uint8Array"

/-- Claim C10: a `writeFile` event whose `data` field is absent makes
`handleWriteFile` return without sending any editor command and without
touching the media map; a present but invalid payload produces exactly
the structured failure callback (when an editor exists) and the optional
`event.callback` failure, with the media map unchanged; the handler is a
total function — the surrounding catch turns every inner throw into that
structured report, so no exception reaches the caller. -/
theorem c10_write_file_handling (editorPresent : Bool) (media : List (String × String))
    (mkUrl : List Nat → String) (ev : WriteFileEvent) :
    (ev.data = none →
      handleWriteFile editorPresent media mkUrl ev =
        { cmds := [], media := media, callbackFail := none })
    ∧ (∀ d, ev.data = some d → invalidWriteFilePayload d = true →
      handleWriteFile editorPresent media mkUrl ev =
        { cmds := if editorPresent then [.writeFileFail (writeFileErrMsg d)] else [],
          media := media,
          callbackFail := if ev.hasCallbackFn then some (writeFileErrMsg d) else none }) := by
  constructor
  · intro h
    simp [handleWriteFile, handleWriteFileBody, h]
  · intro d hd hbad
    rcases d with ⟨img, name⟩
    cases img with
    | bytesI l =>
      cases name with
      | strN s =>
        have hs : s = "" := by
          simpa [invalidWriteFilePayload] using hbad
        subst hs
        simp [handleWriteFile, handleWriteFileBody, hd, writeFileErrMsg]
      | missingN => simp [handleWriteFile, handleWriteFileBody, hd, writeFileErrMsg]
      | notStr => simp [handleWriteFile, handleWriteFileBody, hd, writeFileErrMsg]
    | missingI => simp [handleWriteFile, handleWriteFileBody, hd, writeFileErrMsg]
    | notBytes => simp [handleWriteFile, handleWriteFileBody, hd, writeFileErrMsg]

/-- Witness for C10: an absent data field sends nothing; a non-byte
payload with an editor present sends exactly one failure callback. -/
theorem c10_write_file_witness :
    ((⟨none, false⟩ : WriteFileEvent).data = none
      ∧ handleWriteFile true [("media/a.png", "u")] (fun _ => "blob:x")
          ⟨none, false⟩ =
          { cmds := [], media := [("media/a.png", "u")], callbackFail := none })
    ∧ (invalidWriteFilePayload ⟨.notBytes, .strN "x.png"⟩ = true
      ∧ handleWriteFile true [] (fun _ => "blob:x")
          ⟨some ⟨.notBytes, .strN "x.png"⟩, true⟩ =
          { cmds := [.writeFileFail "Invalid image data: expected Uint8Array"],
            media := [],
            callbackFail := some "Invalid image data: expected Uint8Array" }) :=
  ⟨⟨rfl,
    (c10_write_file_handling true [("media/a.png", "u")] (fun _ => "blob:x")
        ⟨none, false⟩).1 rfl⟩,
   ⟨by decide,
    (c10_write_file_handling true [] (fun _ => "blob:x")
        ⟨some ⟨.notBytes, .strN "x.png"⟩, true⟩).2
      ⟨.notBytes, .strN "x.png"⟩ rfl (by decide)⟩⟩

end DocVerify
